import Mathlib

/-!
Verification of the YJIT code generator (yjit_codegen.c) against its
natural-language specification.  The development shallowly embeds the
compile-time decision logic of the per-opcode code generation routines, the
block compilation driver, the polymorphic guard-chain machinery and the
tracing-invalidation path, and proves the specified properties about the
embedded definitions.  Machine integers are modelled as `Int`/`Nat` with
explicit wrap-around where the hardware semantics matters.
-/

namespace YJIT

/-- Result statuses returned by per-opcode codegen functions
(`codegen_status_t` in yjit_codegen.h): `YJIT_KEEP_COMPILING`,
`YJIT_CANT_COMPILE`, `YJIT_END_BLOCK`. -/
inductive CodegenStatus where
  | keepCompiling
  | cantCompile
  | endBlock
deriving DecidableEq, Repr

/-- Basic-operation identifiers (`BOP_*` from vm_opts.h) that appear in the
`assume_bop_not_redefined` calls of yjit_codegen.c. -/
inductive BOP where
  | bop_lt
  | bop_le
  | bop_ge
  | bop_gt
  | bop_eq
  | bop_plus
  | bop_minus
  | bop_and
  | bop_or
  | bop_aref
  | bop_freeze
  | bop_uminus
deriving DecidableEq, Repr

/-- Per-class redefinition flags (`*_REDEFINED_OP_FLAG`) used as the first
argument of `assume_bop_not_redefined`. -/
inductive RedefFlag where
  | integer_redefined_op_flag
  | string_redefined_op_flag
  | array_redefined_op_flag
  | hash_redefined_op_flag
deriving DecidableEq, Repr

/-- Specific value-type tags of the YJIT type lattice (`ETYPE_*` of
yjit_core.h), as they are consulted by the codegen functions in
yjit_codegen.c (fields `.type` of `val_type_t`). -/
inductive EType where
  | unknown
  | enil
  | etrue
  | efalse
  | fixnum
  | flonum
  | symbol
  | string
  | array
  | hash
deriving DecidableEq, Repr

/-- Compile-time knowledge about one value slot (`val_type_t`): whether the
value is known to be an immediate, known to be heap-allocated, and its
specific type tag when known. -/
structure ValType where
  is_imm : Bool
  is_heap : Bool
  type : EType
deriving DecidableEq, Repr

/-- The `TYPE_UNKNOWN` constant: nothing known. -/
def TYPE_UNKNOWN : ValType := ⟨false, false, EType.unknown⟩

/-- The `TYPE_IMM` constant: known immediate of unknown specific type. -/
def TYPE_IMM : ValType := ⟨true, false, EType.unknown⟩

/-- The `TYPE_HEAP` constant: known heap object of unknown specific type. -/
def TYPE_HEAP : ValType := ⟨false, true, EType.unknown⟩

/-- The `TYPE_NIL` constant. -/
def TYPE_NIL : ValType := ⟨true, false, EType.enil⟩

/-- The `TYPE_TRUE` constant. -/
def TYPE_TRUE : ValType := ⟨true, false, EType.etrue⟩

/-- The `TYPE_FALSE` constant. -/
def TYPE_FALSE : ValType := ⟨true, false, EType.efalse⟩

/-- The `TYPE_FIXNUM` constant. -/
def TYPE_FIXNUM : ValType := ⟨true, false, EType.fixnum⟩

/-- The `TYPE_STRING` constant. -/
def TYPE_STRING : ValType := ⟨false, true, EType.string⟩

/-- The `TYPE_ARRAY` constant. -/
def TYPE_ARRAY : ValType := ⟨false, true, EType.array⟩

/-- The `TYPE_HASH` constant. -/
def TYPE_HASH : ValType := ⟨false, true, EType.hash⟩

/-! ## Guard chains (`jit_chain_guard`, yjit_codegen.c:1383-1431) -/

/-- Identifier of a basic-block version target (`blockid_t`): an iseq
(abstracted to a numeric identity) and an instruction index. -/
structure BlockId where
  iseq : Nat
  idx : Nat
deriving DecidableEq, Repr

/-- The parts of `jitstate_t` that `jit_chain_guard` reads: the iseq being
compiled and the index of the instruction being compiled. -/
structure JitState where
  iseq : Nat
  insn_idx : Nat
deriving DecidableEq, Repr

/-- Where the failure jump of an emitted class guard goes: either to a branch
stub created by `gen_branch` (carrying a target block id and the
`chain_depth` of the deeper context), or directly to the side exit. -/
inductive ChainGuardTarget where
  | branchStub (target : BlockId) (deeperChainDepth : Nat)
  | sideExit
deriving DecidableEq, Repr

/-- `GETIVAR_MAX_DEPTH` (yjit_codegen.c:1428). -/
def GETIVAR_MAX_DEPTH : Nat := 10

/-- `OPT_AREF_MAX_CHAIN_DEPTH` (yjit_codegen.c:1429). -/
def OPT_AREF_MAX_CHAIN_DEPTH : Nat := 2

/-- `SEND_MAX_DEPTH` (yjit_codegen.c:1430). -/
def SEND_MAX_DEPTH : Nat := 5

/-- `jit_chain_guard` (yjit_codegen.c:1383-1423), restricted to the choice of
the guard's failure target.  `chain_depth` is a `uint8_t` field of `ctx_t`,
so the increment is taken modulo 2^8.  When `ctx->chain_depth < depth_limit`
the guard jumps to a branch stub for the same `(iseq, insn_idx)` with a
deeper copy of the context; otherwise it jumps straight to the side exit. -/
def jit_chain_guard (jit : JitState) (chain_depth depth_limit : Nat) :
    ChainGuardTarget :=
  if chain_depth < depth_limit then
    ChainGuardTarget.branchStub ⟨jit.iseq, jit.insn_idx⟩ ((chain_depth + 1) % 256)
  else
    ChainGuardTarget.sideExit

/-! ## Tracing invalidation (`yjit_tracing_invalidate_all`,
yjit_codegen.c:4011-4042) and the frozen-bytes watermark
(`yjit_codepage_frozen_bytes`, yjit_codegen.c:59) -/

/-- One entry of `global_inval_patches` (`struct codepage_patch`,
yjit_codegen.c:46-49). -/
structure CodepagePatch where
  inline_patch_pos : Nat
  outlined_target_pos : Nat
deriving DecidableEq, Repr

/-- The state that `yjit_tracing_invalidate_all` reads and writes: the inline
code block's write position (`cb->write_pos`) and the global
`yjit_codepage_frozen_bytes` watermark. -/
structure InvalState where
  cb_write_pos : Nat
  frozen_bytes : Nat
deriving DecidableEq, Repr

/-- Initial value of `yjit_codepage_frozen_bytes` (yjit_codegen.c:59). -/
def yjit_codepage_frozen_bytes_init : Nat := 0

/-- The patch-application and watermark-update core of
`yjit_tracing_invalidate_all` (yjit_codegen.c:4023-4039).  The function
records `old_pos = cb->write_pos`, then for every patch sets the write
position to the patch position and emits a jump there, and finally restores
the write position to `old_pos` with `cb_set_pos(cb, old_pos)` — so the net
write position after the patch loop is `old_pos` again.  It then asserts
(`RUBY_ASSERT_ALWAYS`, which aborts the process when violated — modelled as
`none`) that `yjit_codepage_frozen_bytes <= old_pos`, and raises the
watermark to `old_pos`. -/
def yjit_tracing_invalidate_all (patches : List CodepagePatch)
    (s : InvalState) : Option InvalState :=
  let old_pos := s.cb_write_pos
  -- the patch loop's final cb_set_pos(cb, old_pos) restores the position
  let _ := patches
  if s.frozen_bytes ≤ old_pos then
    some { cb_write_pos := old_pos, frozen_bytes := old_pos }
  else
    none

/-! ## `gen_checktype` (yjit_codegen.c:1805-1862) -/

/-- The `ruby_value_type` values relevant to `checktype`: the codegen only
supports `T_STRING`, `T_ARRAY` and `T_HASH` ("Only three types are emitted by
compile.c"); every other checked type is abstracted by its numeric value. -/
inductive RubyT where
  | tString
  | tArray
  | tHash
  | tOther (n : Nat)
deriving DecidableEq, Repr

/-- What `gen_checktype` emits for the supported checked types: a constant
`Qtrue` push, a constant `Qfalse` push, or a run-time object-flags check
(`immediateTest` records whether the `SPECIAL_CONST_P` pre-test is emitted,
which happens exactly when the slot is not known to be heap-allocated);
`cantCompile` models the `YJIT_CANT_COMPILE` return. -/
inductive ChecktypeEmit where
  | pushTrue
  | pushFalse
  | runtimeCheck (immediateTest : Bool)
  | cantCompile
deriving DecidableEq, Repr

/-- `gen_checktype` (yjit_codegen.c:1805-1862), as a function of the checked
type operand and the compile-time type of the top stack slot.  Mirrors the
source: first the guaranteed-match test on the specific type tag, then the
guaranteed-mismatch test `val_type.is_imm || val_type.type != ETYPE_UNKNOWN`,
then the run-time check; checked types other than `T_STRING`/`T_ARRAY`/
`T_HASH` are refused. -/
def gen_checktype (type_val : RubyT) (val_type : ValType) : ChecktypeEmit :=
  match type_val with
  | RubyT.tString | RubyT.tArray | RubyT.tHash =>
    if (type_val = RubyT.tString ∧ val_type.type = EType.string) ∨
       (type_val = RubyT.tArray ∧ val_type.type = EType.array) ∨
       (type_val = RubyT.tHash ∧ val_type.type = EType.hash) then
      ChecktypeEmit.pushTrue
    else if val_type.is_imm ∨ val_type.type ≠ EType.unknown then
      ChecktypeEmit.pushFalse
    else
      ChecktypeEmit.runtimeCheck (!val_type.is_heap)
  | RubyT.tOther _ => ChecktypeEmit.cantCompile

/-- The specific type tag a `checktype` operand checks for, for the three
supported checked types. -/
def checktypeEType (type_val : RubyT) : EType :=
  match type_val with
  | RubyT.tString => EType.string
  | RubyT.tArray => EType.array
  | RubyT.tHash => EType.hash
  | RubyT.tOther _ => EType.unknown

/-! ## `gen_dupn` (yjit_codegen.c:749-773) -/

/-- Slot mappings of the compile-time context (`temp_mapping_t`): a plain
stack temp, an alias of `self`, or an alias of local `i`. -/
inductive TempMapping where
  | stack
  | selfM
  | localM (i : Nat)
deriving DecidableEq, Repr

/-- A `(type, mapping)` pair for one stack slot (`temp_type_mapping_t`). -/
structure TempTypeMapping where
  type : ValType
  mapping : TempMapping
deriving DecidableEq, Repr

/-- `gen_dupn` (yjit_codegen.c:749-773) at the level of its compile status
and context effect.  The stack of `(type, mapping)` pairs is listed topmost
first.  The source refuses (`YJIT_CANT_COMPILE`) unless the operand `n`
equals 2; for `n = 2` it reads the mappings of the two topmost slots and
pushes them again in the same order (slot 1 first, then slot 0). -/
def gen_dupn (n : Nat) (stack : List TempTypeMapping) :
    CodegenStatus × List TempTypeMapping :=
  if n ≠ 2 then
    (CodegenStatus.cantCompile, stack)
  else
    let mapping1 := List.getD stack 1 ⟨TYPE_UNKNOWN, TempMapping.stack⟩
    let mapping0 := List.getD stack 0 ⟨TYPE_UNKNOWN, TempMapping.stack⟩
    (CodegenStatus.keepCompiling, mapping0 :: mapping1 :: stack)

/-! ## Fixnum comparisons (`gen_fixnum_cmp` and `gen_opt_lt`/`le`/`ge`/`gt`,
yjit_codegen.c:1937-1991) -/

/-- The conditional-move operations passed to `gen_fixnum_cmp` by the four
comparison opcodes. -/
inductive CmovFn where
  | cmovl
  | cmovle
  | cmovge
  | cmovg
deriving DecidableEq, Repr

/-- Observable compile-time behaviour of `gen_fixnum_cmp`: which
`(redefinition flag, basic operation)` pair is passed to
`assume_bop_not_redefined`, which conditional move is used for the
comparison, and the returned status. -/
structure FixnumCmpGen where
  bopAssumed : RedefFlag × BOP
  cmov : CmovFn
  status : CodegenStatus
deriving DecidableEq, Repr

/-- `gen_fixnum_cmp` (yjit_codegen.c:1937-1967).  The source calls
`assume_bop_not_redefined(jit->block, INTEGER_REDEFINED_OP_FLAG, BOP_LT)` —
the operation is the literal `BOP_LT` for every caller — and returns
`YJIT_CANT_COMPILE` when that registration fails (`assume_ok = false`);
otherwise it guards two fixnums, compares, and keeps compiling. -/
def gen_fixnum_cmp (assume_ok : Bool) (cmov_op : CmovFn) : FixnumCmpGen :=
  { bopAssumed := (RedefFlag.integer_redefined_op_flag, BOP.bop_lt)
    cmov := cmov_op
    status := if assume_ok then CodegenStatus.keepCompiling
              else CodegenStatus.cantCompile }

/-- `gen_opt_lt` (yjit_codegen.c:1969-1973). -/
def gen_opt_lt (assume_ok : Bool) : FixnumCmpGen :=
  gen_fixnum_cmp assume_ok CmovFn.cmovl

/-- `gen_opt_le` (yjit_codegen.c:1975-1979). -/
def gen_opt_le (assume_ok : Bool) : FixnumCmpGen :=
  gen_fixnum_cmp assume_ok CmovFn.cmovle

/-- `gen_opt_ge` (yjit_codegen.c:1981-1985). -/
def gen_opt_ge (assume_ok : Bool) : FixnumCmpGen :=
  gen_fixnum_cmp assume_ok CmovFn.cmovge

/-- `gen_opt_gt` (yjit_codegen.c:1987-1991). -/
def gen_opt_gt (assume_ok : Bool) : FixnumCmpGen :=
  gen_fixnum_cmp assume_ok CmovFn.cmovg

/-- The basic operation that each fixnum comparison opcode itself implements
(`opt_lt` is `<`, `opt_le` is `<=`, `opt_ge` is `>=`, `opt_gt` is `>`), per
the specification's wording. -/
def cmovImplementsBop (c : CmovFn) : BOP :=
  match c with
  | CmovFn.cmovl => BOP.bop_lt
  | CmovFn.cmovle => BOP.bop_le
  | CmovFn.cmovge => BOP.bop_ge
  | CmovFn.cmovg => BOP.bop_gt

/-! ## `guard_two_fixnums` (yjit_codegen.c:1886-1932) and `gen_opt_plus`
(yjit_codegen.c:2352-2381) -/

/-- What `guard_two_fixnums` emits: either an unconditional jump to the side
exit (when a compile-time type rules fixnums out), or a pair of flags saying
for which of the two operands a `test`+`jz` fixnum-tag guard was emitted (no
guard is needed for an operand already known to be a fixnum). -/
inductive TwoFixnumGuard where
  | alwaysExit
  | guards (guardArg0 guardArg1 : Bool)
deriving DecidableEq, Repr

/-- `guard_two_fixnums` (yjit_codegen.c:1886-1932), as a function of the
compile-time types of the two topmost stack slots (`arg0` below `arg1`).
A heap-known operand, or an operand whose specific type is known and is not
fixnum, makes the function emit an unconditional jump to the side exit.
Otherwise a run-time fixnum-tag guard is emitted for each operand not
already known to be a fixnum, and both slots are upgraded to
`TYPE_FIXNUM`. -/
def guard_two_fixnums (arg0_type arg1_type : ValType) : TwoFixnumGuard :=
  if arg0_type.is_heap ∨ arg1_type.is_heap then
    TwoFixnumGuard.alwaysExit
  else if arg0_type.type ≠ EType.fixnum ∧ arg0_type.type ≠ EType.unknown then
    TwoFixnumGuard.alwaysExit
  else if arg1_type.type ≠ EType.fixnum ∧ arg1_type.type ≠ EType.unknown then
    TwoFixnumGuard.alwaysExit
  else
    TwoFixnumGuard.guards (arg0_type.type ≠ EType.fixnum)
      (arg1_type.type ≠ EType.fixnum)

/-- Smallest signed 64-bit machine integer. -/
def I64_MIN : Int := -(2 ^ 63)

/-- Largest signed 64-bit machine integer. -/
def I64_MAX : Int := 2 ^ 63 - 1

/-- Two's-complement wrap-around of an integer to the signed 64-bit range. -/
def wrap64 (v : Int) : Int := (v + 2 ^ 63) % 2 ^ 64 - 2 ^ 63

/-- Signed 64-bit addition with the x86 overflow flag: the wrapped sum
together with whether the exact sum left the representable range (the flag
tested by the `jo` instruction). -/
def addOvf (a b : Int) : Int × Bool :=
  (wrap64 (a + b), decide (a + b < I64_MIN ∨ I64_MAX < a + b))

/-- `RUBY_FIXNUM_FLAG`: the low tag bit of an encoded fixnum. -/
def RUBY_FIXNUM_FLAG : Int := 1

/-- `FIXNUM_P` on a 64-bit machine word: the `test val, RUBY_FIXNUM_FLAG`
guard of `guard_two_fixnums` passes exactly when the low bit is set. -/
def fixnum_p (v : Int) : Bool := v % 2 = 1

/-- Smallest Ruby fixnum on a 64-bit platform (`RUBY_FIXNUM_MIN`). -/
def RUBY_FIXNUM_MIN : Int := -(2 ^ 62)

/-- Largest Ruby fixnum on a 64-bit platform (`RUBY_FIXNUM_MAX`). -/
def RUBY_FIXNUM_MAX : Int := 2 ^ 62 - 1

/-- `INT2FIX`: the tagged 64-bit encoding `2 * n + 1` of a fixnum `n`. -/
def INT2FIX (n : Int) : Int := 2 * n + 1

/-- Run-time effect of the arithmetic sequence emitted by `gen_opt_plus`
(yjit_codegen.c:2370-2374): `mov REG0, arg0; sub REG0, 1; add REG0, arg1;
jo side_exit`.  The `sub` wraps (its overflow flag is overwritten and never
tested); the `jo` after the `add` side-exits (`none`) when the addition
overflowed, otherwise the wrapped register value is pushed. -/
def opt_plus_arith (arg0 arg1 : Int) : Option Int :=
  let reg0 := wrap64 (arg0 - 1)
  let s := addOvf reg0 arg1
  if s.2 then none else some s.1

/-- Run-time effect of the whole code sequence emitted by `gen_opt_plus` for
given compile-time operand types: first the fixnum guards of
`guard_two_fixnums` (side-exit, `none`, when an emitted tag guard fails or
when the guard degenerated to an unconditional side-exit jump), then the
overflow-checked addition. -/
def gen_opt_plus_run (arg0_type arg1_type : ValType) (arg0 arg1 : Int) :
    Option Int :=
  match guard_two_fixnums arg0_type arg1_type with
  | TwoFixnumGuard.alwaysExit => none
  | TwoFixnumGuard.guards g0 g1 =>
    if g0 ∧ ¬ fixnum_p arg0 then none
    else if g1 ∧ ¬ fixnum_p arg1 then none
    else opt_plus_arith arg0 arg1

/-- Observable compile-time behaviour of `gen_opt_plus`
(yjit_codegen.c:2352-2381): the `(flag, bop)` pair registered through
`assume_bop_not_redefined`, the returned status, the fixnum guard emitted
(absent when compilation is refused before reaching it), and the type pushed
for the result. -/
structure OptPlusGen where
  bopAssumed : RedefFlag × BOP
  status : CodegenStatus
  guard : Option TwoFixnumGuard
  pushType : Option ValType
deriving DecidableEq, Repr

/-- `gen_opt_plus` (yjit_codegen.c:2352-2381) at compile time: it registers
`BasicOpNotRedefined(INTEGER_REDEFINED_OP_FLAG, BOP_PLUS)` and returns
`YJIT_CANT_COMPILE` when the registration fails; otherwise it emits the
two-fixnum guard on the operand types, the overflow-checked addition, and
pushes a `TYPE_FIXNUM` result. -/
def gen_opt_plus (assume_ok : Bool) (arg0_type arg1_type : ValType) :
    OptPlusGen :=
  if assume_ok then
    { bopAssumed := (RedefFlag.integer_redefined_op_flag, BOP.bop_plus)
      status := CodegenStatus.keepCompiling
      guard := some (guard_two_fixnums arg0_type arg1_type)
      pushType := some TYPE_FIXNUM }
  else
    { bopAssumed := (RedefFlag.integer_redefined_op_flag, BOP.bop_plus)
      status := CodegenStatus.cantCompile
      guard := none
      pushType := none }

/-! ## A small instruction language for the emitted sequences of `gen_leave`
(yjit_codegen.c:3723-3757) and `jit_protected_callee_ancestry_guard`
(yjit_codegen.c:2837-2848) -/

/-- The registers these sequences name: the scratch registers `REG0`/`REG1`,
the fixed `REG_CFP`/`REG_EC`/`REG_SP` convention registers, the C return
register `RAX`, and the first two C argument registers. -/
inductive Reg where
  | REG0
  | REG1
  | REG_CFP
  | REG_EC
  | REG_SP
  | RAX
  | C_ARG0
  | C_ARG1
deriving DecidableEq, Repr

/-- Operand forms: a 64-bit register, a 32-bit register view (`REG0_32`), a
64-bit memory operand `[base + offset]` (`mem_opnd(64, base, offset)`), a
32-bit memory operand (`member_opnd` of a 32-bit field), an immediate, and
the stack-temp slot operand returned by `ctx_stack_pop`. -/
inductive Opnd where
  | reg (r : Reg)
  | reg32 (r : Reg)
  | mem (base : Reg) (offset : Int)
  | mem32 (base : Reg) (offset : Int)
  | imm (v : Int)
  | stackSlot (n : Nat)
deriving DecidableEq, Repr

/-- Counted side-exit reasons appearing in these sequences
(`COUNTED_EXIT(side_exit, …)`). -/
inductive ExitCounter where
  | leave_se_interrupt
  | send_se_protected_check_failed
deriving DecidableEq, Repr

/-- The external C functions called by the embedded sequences. -/
inductive CFun where
  | rb_obj_is_kind_of
deriving DecidableEq, Repr

/-- GC-traced pointers moved into registers by `jit_mov_gc_ptr` in the
embedded sequences. -/
inductive GcPtr where
  | cmeDefinedClass
deriving DecidableEq, Repr

/-- The assembler operations the two embedded sequences use, one constructor
per emit call of the assembler facade. -/
inductive AsmOp where
  | mov (dst src : Opnd)
  | notOp (o : Opnd)
  | test (a b : Opnd)
  | add (dst : Opnd) (v : Int)
  | sub (dst : Opnd) (v : Int)
  | jnzExit (c : ExitCounter)
  | jzExit (c : ExitCounter)
  | jmpMem (base : Reg) (offset : Int)
  | callPtr (f : CFun)
  | movGcPtr (dst : Opnd) (p : GcPtr)
deriving DecidableEq, Repr

/-- Binary layout constants of the host VM structures that the generated
code addresses (`sizeof(rb_control_frame_t)` and the `offsetof` values of
the `rb_control_frame_t` and `rb_execution_context_t` fields used here).
The layout comes from vm_core.h, which is external to this repository, so
the embedding is parametric in it; `cfp_size_pos` records that a C struct
has a positive size. -/
structure VMLayout where
  cfp_sp : Int
  cfp_self : Int
  cfp_ep : Int
  cfp_jit_return : Int
  cfp_size : Int
  ec_cfp : Int
  ec_interrupt_mask : Int
  ec_interrupt_flag : Int
  cfp_size_pos : 0 < cfp_size

/-- A concrete instantiation of `VMLayout` with the field offsets of CRuby
3.1 on x86-64 (used as the concrete input of witness evaluations). -/
def cruby31Layout : VMLayout :=
  { cfp_sp := 8
    cfp_self := 24
    cfp_ep := 32
    cfp_jit_return := 48
    cfp_size := 56
    ec_cfp := 16
    ec_interrupt_mask := 36
    ec_interrupt_flag := 32
    cfp_size_pos := by norm_num }

/-- The interrupt-check sequence `yjit_check_ints` (yjit_codegen.c:548-560):
`mov REG0_32, ec->interrupt_mask; not REG0_32; test ec->interrupt_flag,
REG0_32; jnz side_exit`. -/
def yjit_check_ints (L : VMLayout) (exit : ExitCounter) : List AsmOp :=
  [ AsmOp.mov (Opnd.reg32 Reg.REG0) (Opnd.mem32 Reg.REG_EC L.ec_interrupt_mask)
  , AsmOp.notOp (Opnd.reg32 Reg.REG0)
  , AsmOp.test (Opnd.mem32 Reg.REG_EC L.ec_interrupt_flag) (Opnd.reg32 Reg.REG0)
  , AsmOp.jnzExit exit ]

/-- Run-time effect of `yjit_check_ints`: the 32-bit `not` of the interrupt
mask is tested against the interrupt flag word, and the `jnz` side-exits
exactly when `interrupt_flag AND (NOT interrupt_mask)` is non-zero. -/
def yjit_check_ints_run (interrupt_mask interrupt_flag : Nat) : Bool :=
  interrupt_flag &&& (Nat.xor interrupt_mask (2 ^ 32 - 1)) ≠ 0

/-- `gen_leave` (yjit_codegen.c:3723-3757).  The function asserts
(`RUBY_ASSERT`) that the compile-time stack height is 1 — modelled as `none`
on violation — and otherwise emits, in order: the EP load, the interrupt
check (side-exiting with the `leave_se_interrupt` counter), the load of the
popped return value, `add REG_CFP, sizeof(rb_control_frame_t)` together
with the store of the popped CFP into `ec->cfp`, the reload of `REG_SP` from
the caller frame and the store of the return value at `[REG_SP + 0]`, and
finally an indirect jump through the `jit_return` field at offset
`-sizeof(rb_control_frame_t) + offsetof(rb_control_frame_t, jit_return)`
from the new `REG_CFP` — i.e. on the frame that was just popped.  It
returns `YJIT_END_BLOCK`. -/
def gen_leave (L : VMLayout) (stack_size : Nat) :
    Option (List AsmOp × CodegenStatus) :=
  if stack_size = 1 then
    some
      ( [ AsmOp.mov (Opnd.reg Reg.REG1) (Opnd.mem Reg.REG_CFP L.cfp_ep) ]
        ++ yjit_check_ints L ExitCounter.leave_se_interrupt
        ++ [ AsmOp.mov (Opnd.reg Reg.REG0) (Opnd.stackSlot 0)
           , AsmOp.add (Opnd.reg Reg.REG_CFP) L.cfp_size
           , AsmOp.mov (Opnd.mem Reg.REG_EC L.ec_cfp) (Opnd.reg Reg.REG_CFP)
           , AsmOp.mov (Opnd.reg Reg.REG_SP) (Opnd.mem Reg.REG_CFP L.cfp_sp)
           , AsmOp.mov (Opnd.mem Reg.REG_SP 0) (Opnd.reg Reg.REG0)
           , AsmOp.jmpMem Reg.REG_CFP (-L.cfp_size + L.cfp_jit_return) ]
      , CodegenStatus.endBlock )
  else
    none

/-- Whether an operation moves the CFP register toward the callee direction
(a decrement: `sub` of a positive amount or `add` of a negative amount on
`REG_CFP`). -/
def decrementsCFP (op : AsmOp) : Bool :=
  match op with
  | AsmOp.sub (Opnd.reg Reg.REG_CFP) v => decide (0 < v)
  | AsmOp.add (Opnd.reg Reg.REG_CFP) v => decide (v < 0)
  | _ => false

/-- Whether an operation moves the CFP register toward the caller direction
(an increment on `REG_CFP`). -/
def incrementsCFP (op : AsmOp) : Bool :=
  match op with
  | AsmOp.add (Opnd.reg Reg.REG_CFP) v => decide (0 < v)
  | AsmOp.sub (Opnd.reg Reg.REG_CFP) v => decide (v < 0)
  | _ => false

/-! ## Visibility enforcement in `gen_send_general`
(yjit_codegen.c:3504-3521) and `jit_protected_callee_ancestry_guard`
(yjit_codegen.c:2837-2848) -/

/-- `jit_protected_callee_ancestry_guard` (yjit_codegen.c:2837-2848):
`mov C_ARG0, cfp->self; mov C_ARG1, cme->defined_class;
call rb_obj_is_kind_of; test RAX, RAX; jz counted_side_exit`. -/
def jit_protected_callee_ancestry_guard (L : VMLayout) : List AsmOp :=
  [ AsmOp.mov (Opnd.reg Reg.C_ARG0) (Opnd.mem Reg.REG_CFP L.cfp_self)
  , AsmOp.movGcPtr (Opnd.reg Reg.C_ARG1) GcPtr.cmeDefinedClass
  , AsmOp.callPtr CFun.rb_obj_is_kind_of
  , AsmOp.test (Opnd.reg Reg.RAX) (Opnd.reg Reg.RAX)
  , AsmOp.jzExit ExitCounter.send_se_protected_check_failed ]

/-- `Qfalse`: the false object is the machine word 0 (ruby.h). -/
def Qfalse : Int := 0

/-- `Qtrue`: the true object's encoding, 0x14 (ruby.h); any non-zero value. -/
def Qtrue : Int := 20

/-- Evaluation state for the guard sequences: the C return register, the
zero flag, and whether (and through which counter) a side exit was taken. -/
structure GuardEvalState where
  rax : Int
  zf : Bool
  exited : Option ExitCounter
deriving DecidableEq, Repr

/-- One step of evaluation of the operations used by the embedded guard
sequences.  `kindOf` is the boolean result of the external
`rb_obj_is_kind_of` call (which returns `Qtrue` or `Qfalse` in `RAX`);
`test a, a` on a register sets the zero flag exactly when the register is
zero; operations that touch neither `RAX` nor the flags (argument moves) are
identities on this state. -/
def guardEvalStep (kindOf : Bool) (s : GuardEvalState) (op : AsmOp) :
    GuardEvalState :=
  match s.exited with
  | some _ => s
  | none =>
    match op with
    | AsmOp.callPtr CFun.rb_obj_is_kind_of =>
      { s with rax := if kindOf then Qtrue else Qfalse }
    | AsmOp.test (Opnd.reg Reg.RAX) (Opnd.reg Reg.RAX) =>
      { s with zf := decide (s.rax = 0) }
    | AsmOp.jzExit c => if s.zf then { s with exited := some c } else s
    | AsmOp.jnzExit c => if s.zf then s else { s with exited := some c }
    | _ => s

/-- Run the protected-callee guard sequence: returns the side-exit counter
taken, if any. -/
def protected_guard_run (L : VMLayout) (kindOf : Bool) : Option ExitCounter :=
  (List.foldl (guardEvalStep kindOf) ⟨0, false, none⟩
    (jit_protected_callee_ancestry_guard L)).exited

/-- Method-entry visibilities (`METHOD_VISI_*`). -/
inductive MethodVisi where
  | visiPublic
  | visiPrivate
  | visiProtected
  | visiUndef
deriving DecidableEq, Repr

/-- Outcome of the visibility switch of `gen_send_general`: proceed with a
(possibly empty) emitted run-time guard, refuse compilation, or hit the
internal `RUBY_ASSERT(false)` for an undefined visibility. -/
inductive VisiOutcome where
  | proceed (guard : List AsmOp)
  | cantCompile
  | internalError
deriving DecidableEq, Repr

/-- The `METHOD_ENTRY_VISI(cme)` switch of `gen_send_general`
(yjit_codegen.c:3504-3521): public methods always proceed with no guard;
private methods proceed only when the call-site flags contain
`VM_CALL_FCALL`, otherwise `YJIT_CANT_COMPILE`; protected methods proceed
after emitting `jit_protected_callee_ancestry_guard`; an undefined
visibility is an internal error (`RUBY_ASSERT(false)`). -/
def gen_send_visibility (L : VMLayout) (visi : MethodVisi) (fcall : Bool) :
    VisiOutcome :=
  match visi with
  | MethodVisi.visiPublic => VisiOutcome.proceed []
  | MethodVisi.visiPrivate =>
    if ¬ fcall then VisiOutcome.cantCompile else VisiOutcome.proceed []
  | MethodVisi.visiProtected =>
    VisiOutcome.proceed (jit_protected_callee_ancestry_guard L)
  | MethodVisi.visiUndef => VisiOutcome.internalError

/-! ## The block compilation driver (`yjit_gen_block`,
yjit_codegen.c:590-724) -/

/-- YARV opcodes, with the ones the driver treats specially named and the
rest abstracted by their numeric value. -/
inductive Opcode where
  | opt_getinlinecache
  | dupn
  | other (n : Nat)
deriving DecidableEq, Repr

/-- The bytecode inputs the driver reads: the opcode stored at an
instruction index of `iseq_encoded`, the first operand word of the
instruction at an index (`jit_get_arg(jit, 0)`), and the instruction length
table `insn_len`. -/
structure Program where
  opcodeAt : Nat → Opcode
  argAt : Nat → Nat
  len : Opcode → Nat

/-- A per-opcode codegen function as the driver sees it: it reads the
program and the current instruction index (standing for the
`(jit_state, context)` pair) and returns a status. -/
def CodegenFn : Type := Program → Nat → CodegenStatus

/-- Events of a compilation run, in emission order: invocation of an
opcode's codegen at an index, emission of an exit to the interpreter whose
exit PC is the given instruction index, and the block-ending stubbed jump to
the instruction at the given index emitted by `jit_jump_to_next_insn`. -/
inductive Ev where
  | invoke (op : Opcode) (idx : Nat)
  | exitAt (idx : Nat)
  | cutJump (target : Nat)
deriving DecidableEq, Repr

/-- The instruction loop of `yjit_gen_block` (yjit_codegen.c:626-703),
returning the emitted event trace and the final `insn_idx` (the block's
`end_idx`).  `fuel` bounds the number of iterations (the C loop is bounded
by the finite iseq).  `jit_insn_idx` carries the `jit.insn_idx` field, which
is set to the current index only after the `opt_getinlinecache` cut check —
so when the cut fires, `jit_jump_to_next_insn` computes its target from the
previous instruction as `jit.insn_idx + insn_len(jit.opcode)`.  The cases
mirror the source: the cut for a non-leading `opt_getinlinecache`, the exit
on an unknown opcode, the exit-and-stop on `YJIT_CANT_COMPILE` (before
`insn_idx` is advanced), the advance on `YJIT_KEEP_COMPILING`, and the stop
after the advance on `YJIT_END_BLOCK`. -/
def yjit_gen_block (p : Program) (gen_fns : Opcode → Option CodegenFn) :
    Nat → Nat → Nat → Nat → List Ev × Nat
  | 0, _, insn_idx, _ => ([], insn_idx)
  | fuel + 1, starting_insn_idx, insn_idx, jit_insn_idx =>
    let opcode := p.opcodeAt insn_idx
    if opcode = Opcode.opt_getinlinecache ∧ starting_insn_idx < insn_idx then
      ([Ev.cutJump (jit_insn_idx + p.len (p.opcodeAt jit_insn_idx))], insn_idx)
    else
      match gen_fns opcode with
      | none => ([Ev.exitAt insn_idx], insn_idx)
      | some gen_fn =>
        match gen_fn p insn_idx with
        | CodegenStatus.cantCompile =>
          ([Ev.invoke opcode insn_idx, Ev.exitAt insn_idx], insn_idx)
        | CodegenStatus.endBlock =>
          ([Ev.invoke opcode insn_idx], insn_idx + p.len opcode)
        | CodegenStatus.keepCompiling =>
          let r := yjit_gen_block p gen_fns fuel starting_insn_idx
            (insn_idx + p.len opcode) insn_idx
          (Ev.invoke opcode insn_idx :: r.1, r.2)

/-- The driver's codegen entry for `dupn`: `gen_dupn` reads its operand with
`jit_get_arg(jit, 0)` and decides the status from it (the context effect of
`gen_dupn` is not observed by the driver). -/
def gen_dupn_fn : CodegenFn :=
  fun p insn_idx => (gen_dupn (p.argAt insn_idx) []).1

/-! ## Helper lemmas -/

/-- The last element of a cons is the last element of the (non-empty) tail. -/
theorem getLast?_cons_of_ne_nil {α : Type} (a : α) (l : List α) (h : l ≠ []) :
    (a :: l).getLast? = l.getLast? := by
  cases l with
  | nil => exact absurd rfl h
  | cons b t => simp [List.getLast?]

/-- `wrap64` is the identity on the signed 64-bit range. -/
theorem wrap64_eq_self (v : Int) (h1 : I64_MIN ≤ v) (h2 : v ≤ I64_MAX) :
    wrap64 v = v := by
  have e63 : (2 : Int) ^ 63 = 9223372036854775808 := by norm_num
  have e64 : (2 : Int) ^ 64 = 18446744073709551616 := by norm_num
  simp only [I64_MIN, I64_MAX] at h1 h2
  rw [e63] at h1 h2
  unfold wrap64
  rw [e63, e64, Int.emod_eq_of_lt (by omega) (by omega)]
  omega

/-! ## C1 -/

/-- C1: the specification claims that compiling each of `opt_lt`, `opt_le`,
`opt_ge` and `opt_gt` registers a `BasicOpNotRedefined` assumption on the
operator the opcode itself implements for the `Integer` class.  The code
instead passes the literal `BOP_LT` to `assume_bop_not_redefined` for all
four opcodes (`gen_fixnum_cmp`, yjit_codegen.c:1944), so only the
`opt_lt` registration matches the opcode's own operator; the refusal on a
failed registration does hold.  This theorem evaluates the embedded code at
the failing inputs: all four generators register `(Integer, BOP_LT)`, while
the operators implemented by `opt_le`, `opt_ge` and `opt_gt` are not
`BOP_LT`. -/
theorem C1_fixnum_cmp_registers_bop_lt :
    ∀ assume_ok : Bool,
      (gen_opt_lt assume_ok).bopAssumed =
        (RedefFlag.integer_redefined_op_flag, BOP.bop_lt) ∧
      (gen_opt_le assume_ok).bopAssumed =
        (RedefFlag.integer_redefined_op_flag, BOP.bop_lt) ∧
      (gen_opt_ge assume_ok).bopAssumed =
        (RedefFlag.integer_redefined_op_flag, BOP.bop_lt) ∧
      (gen_opt_gt assume_ok).bopAssumed =
        (RedefFlag.integer_redefined_op_flag, BOP.bop_lt) ∧
      cmovImplementsBop (gen_opt_le assume_ok).cmov ≠ BOP.bop_lt ∧
      cmovImplementsBop (gen_opt_ge assume_ok).cmov ≠ BOP.bop_lt ∧
      cmovImplementsBop (gen_opt_gt assume_ok).cmov ≠ BOP.bop_lt ∧
      ((gen_opt_lt assume_ok).status = CodegenStatus.cantCompile ↔
        assume_ok = false) := by
  intro assume_ok
  cases assume_ok <;> decide

/-! ## C3 -/

/-- C3: for every emitted class guard, while the context's `chain_depth` is
strictly below the per-site cap (`SEND_MAX_DEPTH = 5`,
`OPT_AREF_MAX_CHAIN_DEPTH = 2`, `GETIVAR_MAX_DEPTH = 10`) the failure jump
of the guard targets a branch stub at the same `(iseq, insn_idx)` with
`chain_depth` incremented by one; once the cap is reached the failure jump
targets the side exit directly.  `depth_limit` is a `uint8_t`, hence the
`depth_limit ≤ 255` hypothesis. -/
theorem C3_jit_chain_guard (jit : JitState) (chain_depth depth_limit : Nat)
    (hlim : depth_limit ≤ 255) :
    (SEND_MAX_DEPTH = 5 ∧ OPT_AREF_MAX_CHAIN_DEPTH = 2 ∧
      GETIVAR_MAX_DEPTH = 10) ∧
    (chain_depth < depth_limit →
      jit_chain_guard jit chain_depth depth_limit =
        ChainGuardTarget.branchStub ⟨jit.iseq, jit.insn_idx⟩ (chain_depth + 1)) ∧
    (depth_limit ≤ chain_depth →
      jit_chain_guard jit chain_depth depth_limit = ChainGuardTarget.sideExit) := by
  refine ⟨⟨rfl, rfl, rfl⟩, ?_, ?_⟩
  · intro h
    unfold jit_chain_guard
    rw [if_pos h, Nat.mod_eq_of_lt (by omega)]
  · intro h
    unfold jit_chain_guard
    rw [if_neg (by omega)]

/-- Witness for C3: evaluation at `chain_depth = 4` and at `chain_depth = 5`
against the `send` cap of 5. -/
theorem C3_jit_chain_guard_witness :
    (SEND_MAX_DEPTH ≤ 255) ∧
    ((SEND_MAX_DEPTH = 5 ∧ OPT_AREF_MAX_CHAIN_DEPTH = 2 ∧
       GETIVAR_MAX_DEPTH = 10) ∧
     (4 < SEND_MAX_DEPTH →
       jit_chain_guard ⟨7, 42⟩ 4 SEND_MAX_DEPTH =
         ChainGuardTarget.branchStub ⟨7, 42⟩ 5) ∧
     (SEND_MAX_DEPTH ≤ 4 →
       jit_chain_guard ⟨7, 42⟩ 4 SEND_MAX_DEPTH = ChainGuardTarget.sideExit)) :=
  ⟨by decide, C3_jit_chain_guard ⟨7, 42⟩ 4 SEND_MAX_DEPTH (by decide)⟩

/-! ## C7 -/

/-- C7: the frozen-bytes watermark of the inline code arena is non-decreasing
across the (only) operation that updates it, and after the update it never
exceeds the arena's write position.  `yjit_tracing_invalidate_all` is the
single site that writes `yjit_codepage_frozen_bytes` (yjit_codegen.c:4039);
its `RUBY_ASSERT_ALWAYS` (modelled as `none`, i.e. a process abort) makes a
watermark decrease impossible, and the new watermark equals the restored
write position. -/
theorem C7_frozen_bytes_monotone (patches : List CodepagePatch)
    (s s' : InvalState)
    (h : yjit_tracing_invalidate_all patches s = some s') :
    s.frozen_bytes ≤ s'.frozen_bytes ∧
    s'.frozen_bytes ≤ s'.cb_write_pos ∧
    yjit_codepage_frozen_bytes_init = 0 := by
  unfold yjit_tracing_invalidate_all at h
  by_cases hc : s.frozen_bytes ≤ s.cb_write_pos
  · rw [if_pos hc] at h
    cases h
    exact ⟨hc, le_refl _, rfl⟩
  · rw [if_neg hc] at h
    cases h

/-- Witness for C7: a concrete invalidation from write position 10 with
watermark 3. -/
theorem C7_frozen_bytes_monotone_witness :
    (yjit_tracing_invalidate_all [⟨2, 5⟩] ⟨10, 3⟩ = some ⟨10, 10⟩) ∧
    ((3 : Nat) ≤ 10 ∧ (10 : Nat) ≤ 10 ∧ yjit_codepage_frozen_bytes_init = 0) :=
  ⟨by decide, C7_frozen_bytes_monotone [⟨2, 5⟩] ⟨10, 3⟩ ⟨10, 10⟩ (by decide)⟩

/-! ## C9 -/

/-- The claim's description of `checktype` constant folding, written from the
specification's words for comparison with the embedded source function: a
top slot whose compile-time type equals the checked type folds to a constant
`true`; a known immediate or any other known type folds to a constant
`false`; an unknown non-immediate type produces a run-time check; checked
types other than `T_STRING`/`T_ARRAY`/`T_HASH` are refused. -/
def checktype_claim (type_val : RubyT) (val_type : ValType) : ChecktypeEmit :=
  match type_val with
  | RubyT.tString | RubyT.tArray | RubyT.tHash =>
    if val_type.type = checktypeEType type_val then
      ChecktypeEmit.pushTrue
    else if val_type.is_imm ∨ val_type.type ≠ EType.unknown then
      ChecktypeEmit.pushFalse
    else
      ChecktypeEmit.runtimeCheck (!val_type.is_heap)
  | RubyT.tOther _ => ChecktypeEmit.cantCompile

/-- C9: `gen_checktype` behaves exactly as the claim describes: constant
`true` when the top slot's type equals the checked type, constant `false`
for a known immediate or any other known type, a run-time check only for an
unknown non-immediate type, and refusal for any checked type other than
`T_STRING`, `T_ARRAY`, `T_HASH`. -/
theorem C9_gen_checktype_folds :
    ∀ (type_val : RubyT) (val_type : ValType),
      gen_checktype type_val val_type = checktype_claim type_val val_type := by
  intro type_val val_type
  obtain ⟨i, h, t⟩ := val_type
  cases type_val with
  | tString => cases i <;> cases h <;> cases t <;> decide
  | tArray => cases i <;> cases h <;> cases t <;> decide
  | tHash => cases i <;> cases h <;> cases t <;> decide
  | tOther n => rfl

/-! ## C10 -/

/-- A bytecode whose every instruction is a `dupn` with operand 3 (each
`dupn` instruction occupies 2 words), used for concrete evaluation. -/
def dupnTestProgram : Program :=
  { opcodeAt := fun _ => Opcode.dupn
    argAt := fun _ => 3
    len := fun _ => 2 }

/-- A codegen table whose only entry is `dupn ↦ gen_dupn`. -/
def dupnTestFns : Opcode → Option CodegenFn :=
  fun op =>
    match op with
    | Opcode.dupn => some gen_dupn_fn
    | _ => none

/-- C10: `gen_dupn` compiles only when its operand equals 2 and returns
`YJIT_CANT_COMPILE` for every other operand value; consequently, the driver,
on reaching a `dupn` whose operand is not 2, invokes the codegen, emits an
exit to the interpreter at that instruction's PC and terminates the block
there. -/
theorem C10_gen_dupn (n : Nat) (stack : List TempTypeMapping) (p : Program)
    (gen_fns : Opcode → Option CodegenFn) (fuel start idx jidx : Nat)
    (hfn : gen_fns Opcode.dupn = some gen_dupn_fn)
    (hop : p.opcodeAt idx = Opcode.dupn)
    (harg : p.argAt idx ≠ 2) :
    ((gen_dupn n stack).1 = CodegenStatus.cantCompile ↔ n ≠ 2) ∧
    yjit_gen_block p gen_fns (fuel + 1) start idx jidx =
      ([Ev.invoke Opcode.dupn idx, Ev.exitAt idx], idx) := by
  constructor
  · unfold gen_dupn
    by_cases hn : n = 2
    · subst hn; simp
    · rw [if_pos hn]; simpa using hn
  · have hcall : gen_dupn_fn p idx = CodegenStatus.cantCompile := by
      unfold gen_dupn_fn gen_dupn
      rw [if_pos harg]
    simp only [yjit_gen_block, hop, hfn, hcall]
    rw [if_neg (by simp)]

/-- Witness for C10: evaluation on the concrete program whose `dupn` operand
is 3. -/
theorem C10_gen_dupn_witness :
    (dupnTestFns Opcode.dupn = some gen_dupn_fn) ∧
    (dupnTestProgram.opcodeAt 0 = Opcode.dupn) ∧
    (dupnTestProgram.argAt 0 ≠ 2) ∧
    (((gen_dupn 3 []).1 = CodegenStatus.cantCompile ↔ (3 : Nat) ≠ 2) ∧
     yjit_gen_block dupnTestProgram dupnTestFns 1 0 0 0 =
       ([Ev.invoke Opcode.dupn 0, Ev.exitAt 0], 0)) :=
  ⟨rfl, rfl, by decide,
    C10_gen_dupn 3 [] dupnTestProgram dupnTestFns 0 0 0 0 rfl rfl (by decide)⟩

/-! ## C6 -/

/-- C6: the visibility switch of method-dispatch compilation: a public
callee always proceeds with no guard; a private callee proceeds only when
the call site carries the `FCALL` flag and compilation is refused otherwise;
a protected callee proceeds after emitting the run-time ancestry guard,
which moves `cfp->self` and the method's defining class into the argument
registers, calls `rb_obj_is_kind_of`, and side-exits (through the
`send_se_protected_check_failed` counter) exactly when that check returns
false. -/
theorem C6_send_visibility (L : VMLayout) :
    (∀ fcall,
      gen_send_visibility L MethodVisi.visiPublic fcall =
        VisiOutcome.proceed []) ∧
    (∀ fcall,
      gen_send_visibility L MethodVisi.visiPrivate fcall =
        if fcall then VisiOutcome.proceed [] else VisiOutcome.cantCompile) ∧
    (∀ fcall,
      gen_send_visibility L MethodVisi.visiProtected fcall =
        VisiOutcome.proceed (jit_protected_callee_ancestry_guard L)) ∧
    (AsmOp.mov (Opnd.reg Reg.C_ARG0) (Opnd.mem Reg.REG_CFP L.cfp_self) ∈
      jit_protected_callee_ancestry_guard L) ∧
    (AsmOp.movGcPtr (Opnd.reg Reg.C_ARG1) GcPtr.cmeDefinedClass ∈
      jit_protected_callee_ancestry_guard L) ∧
    (AsmOp.callPtr CFun.rb_obj_is_kind_of ∈
      jit_protected_callee_ancestry_guard L) ∧
    (∀ kindOf,
      protected_guard_run L kindOf =
        if kindOf then none
        else some ExitCounter.send_se_protected_check_failed) := by
  refine ⟨fun fcall => rfl, fun fcall => ?_, fun fcall => rfl, ?_, ?_, ?_, ?_⟩
  · cases fcall <;> rfl
  · simp [jit_protected_callee_ancestry_guard]
  · simp [jit_protected_callee_ancestry_guard]
  · simp [jit_protected_callee_ancestry_guard]
  · intro kindOf
    cases kindOf <;> rfl

/-! ## C2 -/

/-- C2 counterexample: the claim states that `gen_leave` "decrements the CFP
to discard the callee frame" and "jumps to the jit_return address stored on
the caller's frame".  Evaluating the embedded `gen_leave` at the concrete
CRuby 3.1 layout with `stack_size = 1` shows that (a) no emitted operation
decrements `REG_CFP` — the frame is discarded by `add REG_CFP,
sizeof(rb_control_frame_t)`, i.e. `ec->cfp++` — and (b) the final indirect
jump reads `[REG_CFP + (jit_return - sizeof(rb_control_frame_t))]`, the
`jit_return` slot of the frame that was just popped, not the caller frame's
own `jit_return` slot at `[REG_CFP + jit_return]`. -/
theorem C2_gen_leave_counterexample :
    (Option.map (fun r => r.1.any decrementsCFP)
      (gen_leave cruby31Layout 1) = some false) ∧
    (Option.map (fun r => r.1.any incrementsCFP)
      (gen_leave cruby31Layout 1) = some true) ∧
    (Option.map (fun r => AsmOp.add (Opnd.reg Reg.REG_CFP) 56 ∈ r.1)
      (gen_leave cruby31Layout 1) = some True) ∧
    (Option.map (fun r => List.getLast? r.1) (gen_leave cruby31Layout 1) =
      some (some (AsmOp.jmpMem Reg.REG_CFP (-56 + 48)))) ∧
    (Option.map (fun r => AsmOp.jmpMem Reg.REG_CFP 48 ∈ r.1)
      (gen_leave cruby31Layout 1) = some False) ∧
    ((-56 + 48 : Int) ≠ 48) := by
  refine ⟨by decide, by decide, ?_, by decide, ?_, by decide⟩
  · simp [gen_leave, cruby31Layout, yjit_check_ints]
  · simp [gen_leave, cruby31Layout, yjit_check_ints]

/-- C2 (amended): codegen for `leave` asserts that the compile-time
`stack_size` equals 1, emits an interrupt check that side-exits when an
unmasked interrupt flag is set, pops the return value, increments the CFP
(`ec->cfp++`) to discard the callee frame, writes the return value at the
caller's SP top, and jumps to the `jit_return` address stored on the frame
that was just popped. -/
theorem C2_gen_leave_amended (L : VMLayout) (stack_size : Nat)
    (h : stack_size = 1) :
    ∃ ops, gen_leave L stack_size = some (ops, CodegenStatus.endBlock) ∧
      -- the RUBY_ASSERT on the stack height
      (∀ ss : Nat, gen_leave L ss = none ↔ ss ≠ 1) ∧
      -- interrupt check, side-exiting on a pending unmasked interrupt
      (AsmOp.jnzExit ExitCounter.leave_se_interrupt ∈ ops) ∧
      (∀ flag : Nat, flag < 2 ^ 32 →
        (yjit_check_ints_run 0 flag = true ↔ flag ≠ 0)) ∧
      -- the return value is popped and stored at the caller's SP top
      (AsmOp.mov (Opnd.reg Reg.REG0) (Opnd.stackSlot 0) ∈ ops) ∧
      (AsmOp.mov (Opnd.reg Reg.REG_SP) (Opnd.mem Reg.REG_CFP L.cfp_sp) ∈ ops) ∧
      (AsmOp.mov (Opnd.mem Reg.REG_SP 0) (Opnd.reg Reg.REG0) ∈ ops) ∧
      -- the CFP moves one full control frame toward the caller, and is
      -- never decremented
      (AsmOp.add (Opnd.reg Reg.REG_CFP) L.cfp_size ∈ ops) ∧
      (ops.any decrementsCFP = false) ∧
      -- the final jump goes through the jit_return slot of the popped frame
      (List.getLast? ops =
        some (AsmOp.jmpMem Reg.REG_CFP (-L.cfp_size + L.cfp_jit_return))) := by
  subst h
  refine ⟨_, rfl, ?_, ?_, ?_, ?_, ?_, ?_, ?_, ?_, ?_⟩
  · intro ss
    unfold gen_leave
    by_cases hss : ss = 1
    · subst hss; simp
    · rw [if_neg hss]; simpa using hss
  · simp [yjit_check_ints]
  · intro flag hflag
    unfold yjit_check_ints_run
    have hxor : Nat.xor 0 (2 ^ 32 - 1) = 2 ^ 32 - 1 := Nat.zero_xor _
    rw [hxor, Nat.and_pow_two_sub_one_eq_mod, Nat.mod_eq_of_lt hflag]
    simp
  · simp [yjit_check_ints]
  · simp [yjit_check_ints]
  · simp [yjit_check_ints]
  · simp [yjit_check_ints]
  · have hpos := L.cfp_size_pos
    simp [yjit_check_ints, decrementsCFP]
    omega
  · simp [yjit_check_ints, List.getLast?]

/-- Witness for C2 (amended): evaluation at the CRuby 3.1 layout with
`stack_size = 1`. -/
theorem C2_gen_leave_amended_witness :
    ((1 : Nat) = 1) ∧
    (∃ ops, gen_leave cruby31Layout 1 = some (ops, CodegenStatus.endBlock) ∧
      (∀ ss : Nat, gen_leave cruby31Layout ss = none ↔ ss ≠ 1) ∧
      (AsmOp.jnzExit ExitCounter.leave_se_interrupt ∈ ops) ∧
      (∀ flag : Nat, flag < 2 ^ 32 →
        (yjit_check_ints_run 0 flag = true ↔ flag ≠ 0)) ∧
      (AsmOp.mov (Opnd.reg Reg.REG0) (Opnd.stackSlot 0) ∈ ops) ∧
      (AsmOp.mov (Opnd.reg Reg.REG_SP)
        (Opnd.mem Reg.REG_CFP cruby31Layout.cfp_sp) ∈ ops) ∧
      (AsmOp.mov (Opnd.mem Reg.REG_SP 0) (Opnd.reg Reg.REG0) ∈ ops) ∧
      (AsmOp.add (Opnd.reg Reg.REG_CFP) cruby31Layout.cfp_size ∈ ops) ∧
      (ops.any decrementsCFP = false) ∧
      (List.getLast? ops =
        some (AsmOp.jmpMem Reg.REG_CFP
          (-cruby31Layout.cfp_size + cruby31Layout.cfp_jit_return)))) :=
  ⟨rfl, C2_gen_leave_amended cruby31Layout 1 rfl⟩

/-! ## C5 -/

/-- C5: whenever a per-opcode codegen invoked by the block compilation
driver returns `YJIT_CANT_COMPILE`, the driver emits an exit to the
interpreter whose exit PC is the PC of the instruction that failed to
compile — the trace ends with `exitAt j` for the invoked index `j`, so in
particular not with an exit at the next instruction's PC `j + insn_len` —
and terminates the block there (`end_idx = j`). -/
theorem C5_cant_compile_exit (p : Program)
    (gen_fns : Opcode → Option CodegenFn) (fuel start idx jidx j : Nat)
    (f : CodegenFn) (hf : gen_fns (p.opcodeAt j) = some f)
    (hcc : f p j = CodegenStatus.cantCompile)
    (hmem : Ev.invoke (p.opcodeAt j) j ∈
      (yjit_gen_block p gen_fns fuel start idx jidx).1) :
    (yjit_gen_block p gen_fns fuel start idx jidx).1.getLast? =
      some (Ev.exitAt j) ∧
    (yjit_gen_block p gen_fns fuel start idx jidx).2 = j ∧
    (p.len (p.opcodeAt j) ≠ 0 →
      (yjit_gen_block p gen_fns fuel start idx jidx).1.getLast? ≠
        some (Ev.exitAt (j + p.len (p.opcodeAt j)))) := by
  induction fuel generalizing idx jidx with
  | zero => simp [yjit_gen_block] at hmem
  | succ fuel ih =>
    by_cases hcut : p.opcodeAt idx = Opcode.opt_getinlinecache ∧ start < idx
    · rw [yjit_gen_block, if_pos hcut] at hmem
      simp at hmem
    · cases hfn : gen_fns (p.opcodeAt idx) with
      | none =>
        rw [yjit_gen_block, if_neg hcut, hfn] at hmem
        simp at hmem
      | some g =>
        cases hst : g p idx with
        | cantCompile =>
          rw [yjit_gen_block, if_neg hcut, hfn] at hmem
          rw [yjit_gen_block, if_neg hcut, hfn]
          simp only [hst] at hmem ⊢
          have hj : j = idx := by
            simp only [List.mem_cons, List.not_mem_nil, or_false] at hmem
            rcases hmem with h1 | h2
            · exact (Ev.invoke.injEq _ _ _ _).mp h1 |>.2
            · exact absurd h2 (by simp)
          subst hj
          refine ⟨rfl, rfl, fun hpos hcontra => ?_⟩
          simp only [List.getLast?] at hcontra
          have h1 := (Option.some.injEq _ _).mp hcontra
          have h2 := (Ev.exitAt.injEq _ _).mp h1
          omega
        | endBlock =>
          rw [yjit_gen_block, if_neg hcut, hfn] at hmem
          simp only [hst] at hmem
          have hj : j = idx := by
            simp only [List.mem_cons, List.not_mem_nil, or_false] at hmem
            exact (Ev.invoke.injEq _ _ _ _).mp hmem |>.2
          subst hj
          rw [hf] at hfn
          cases hfn
          rw [hcc] at hst
          cases hst
        | keepCompiling =>
          rw [yjit_gen_block, if_neg hcut, hfn] at hmem
          rw [yjit_gen_block, if_neg hcut, hfn]
          simp only [hst] at hmem ⊢
          simp only [List.mem_cons] at hmem
          rcases hmem with h1 | h2
          · have hj : j = idx := (Ev.invoke.injEq _ _ _ _).mp h1 |>.2
            subst hj
            rw [hf] at hfn
            cases hfn
            rw [hcc] at hst
            cases hst
          · have hne : (yjit_gen_block p gen_fns fuel start
                (idx + p.len (p.opcodeAt idx)) idx).1 ≠ [] :=
              List.ne_nil_of_mem h2
            obtain ⟨hlast, hend, hnext⟩ := ih _ _ h2
            refine ⟨?_, hend, ?_⟩
            · rw [getLast?_cons_of_ne_nil _ _ hne]
              exact hlast
            · intro hpos
              rw [getLast?_cons_of_ne_nil _ _ hne]
              exact hnext hpos

/-- Witness for C5: evaluation on the concrete `dupn` program, whose codegen
refuses at index 0. -/
theorem C5_cant_compile_exit_witness :
    (dupnTestFns (dupnTestProgram.opcodeAt 0) = some gen_dupn_fn) ∧
    (gen_dupn_fn dupnTestProgram 0 = CodegenStatus.cantCompile) ∧
    (Ev.invoke (dupnTestProgram.opcodeAt 0) 0 ∈
      (yjit_gen_block dupnTestProgram dupnTestFns 1 0 0 0).1) ∧
    ((yjit_gen_block dupnTestProgram dupnTestFns 1 0 0 0).1.getLast? =
      some (Ev.exitAt 0) ∧
     (yjit_gen_block dupnTestProgram dupnTestFns 1 0 0 0).2 = 0 ∧
     (dupnTestProgram.len (dupnTestProgram.opcodeAt 0) ≠ 0 →
       (yjit_gen_block dupnTestProgram dupnTestFns 1 0 0 0).1.getLast? ≠
         some (Ev.exitAt (0 + dupnTestProgram.len
           (dupnTestProgram.opcodeAt 0))))) :=
  ⟨rfl, rfl, by decide,
    C5_cant_compile_exit dupnTestProgram dupnTestFns 1 0 0 0 0 gen_dupn_fn
      rfl rfl (by decide)⟩

/-! ## C8 -/

/-- Helper for C8: in any run of the driver loop in which the current index
is either the block's starting index or one instruction past the previous
`jit.insn_idx`, a `cutJump t` event can only arise from the
`opt_getinlinecache` cut, `t` is the index of the very instruction at which
the cut fired (strictly after the start), no codegen is ever invoked at `t`,
and the cut ends the trace. -/
theorem yjit_gen_block_cut_props (p : Program)
    (gen_fns : Opcode → Option CodegenFn) (fuel start idx jidx t : Nat)
    (hlen : ∀ op, 0 < p.len op)
    (hinv : idx = start ∨ idx = jidx + p.len (p.opcodeAt jidx))
    (hcut : Ev.cutJump t ∈ (yjit_gen_block p gen_fns fuel start idx jidx).1) :
    p.opcodeAt t = Opcode.opt_getinlinecache ∧ start < t ∧ idx ≤ t ∧
    (∀ op, Ev.invoke op t ∉ (yjit_gen_block p gen_fns fuel start idx jidx).1) ∧
    (yjit_gen_block p gen_fns fuel start idx jidx).1.getLast? =
      some (Ev.cutJump t) := by
  induction fuel generalizing idx jidx with
  | zero => simp [yjit_gen_block] at hcut
  | succ fuel ih =>
    by_cases hc : p.opcodeAt idx = Opcode.opt_getinlinecache ∧ start < idx
    · rw [yjit_gen_block, if_pos hc] at hcut
      rw [yjit_gen_block, if_pos hc]
      have hidx : idx = jidx + p.len (p.opcodeAt jidx) := by
        rcases hinv with h1 | h2
        · exact absurd (h1 ▸ hc.2) (lt_irrefl start)
        · exact h2
      have ht : t = jidx + p.len (p.opcodeAt jidx) := by
        simp only [List.mem_singleton] at hcut
        exact (Ev.cutJump.injEq _ _).mp hcut
      refine ⟨?_, ?_, ?_, ?_, ?_⟩
      · rw [ht, ← hidx]; exact hc.1
      · rw [ht, ← hidx]; exact hc.2
      · rw [ht, ← hidx]
      · intro op
        simp
      · rw [ht]
        rfl
    · cases hfn : gen_fns (p.opcodeAt idx) with
      | none =>
        rw [yjit_gen_block, if_neg hc, hfn] at hcut
        simp at hcut
      | some g =>
        cases hst : g p idx with
        | cantCompile =>
          rw [yjit_gen_block, if_neg hc, hfn] at hcut
          simp only [hst] at hcut
          simp at hcut
        | endBlock =>
          rw [yjit_gen_block, if_neg hc, hfn] at hcut
          simp only [hst] at hcut
          simp at hcut
        | keepCompiling =>
          rw [yjit_gen_block, if_neg hc, hfn] at hcut
          rw [yjit_gen_block, if_neg hc, hfn]
          simp only [hst] at hcut ⊢
          simp only [List.mem_cons] at hcut
          rcases hcut with h1 | h2
          · exact absurd h1 (by simp)
          · have hne : (yjit_gen_block p gen_fns fuel start
                (idx + p.len (p.opcodeAt idx)) idx).1 ≠ [] :=
              List.ne_nil_of_mem h2
            obtain ⟨hop, hstart, hle, hninv, hlast⟩ :=
              ih _ _ (Or.inr rfl) h2
            have hlt : idx < t := by
              have := hlen (p.opcodeAt idx)
              omega
            refine ⟨hop, hstart, le_of_lt hlt, ?_, ?_⟩
            · intro op
              simp only [List.mem_cons, not_or]
              refine ⟨?_, hninv op⟩
              intro hcontra
              have := (Ev.invoke.injEq _ _ _ _).mp hcontra |>.2
              omega
            · rw [getLast?_cons_of_ne_nil _ _ hne]
              exact hlast

/-- C8: whenever the compilation driver, walking a block that started at
`start`, encounters an `opt_getinlinecache` instruction at an index strictly
greater than `start`, it ends the block with a stubbed jump to that very
instruction instead of invoking the opcode's codegen: every `cutJump t` in
the trace of a run beginning at `start` points at an `opt_getinlinecache`
located strictly after `start`, the codegen at `t` is never invoked in the
whole run, and the cut is the last emitted event. -/
theorem C8_opt_getinlinecache_cut (p : Program)
    (gen_fns : Opcode → Option CodegenFn) (fuel start t : Nat)
    (hlen : ∀ op, 0 < p.len op)
    (hcut : Ev.cutJump t ∈ (yjit_gen_block p gen_fns fuel start start start).1) :
    p.opcodeAt t = Opcode.opt_getinlinecache ∧ start < t ∧
    (∀ op, Ev.invoke op t ∉
      (yjit_gen_block p gen_fns fuel start start start).1) ∧
    (yjit_gen_block p gen_fns fuel start start start).1.getLast? =
      some (Ev.cutJump t) := by
  obtain ⟨h1, h2, _, h4, h5⟩ :=
    yjit_gen_block_cut_props p gen_fns fuel start start start t hlen
      (Or.inl rfl) hcut
  exact ⟨h1, h2, h4, h5⟩

/-- A two-instruction bytecode — an ordinary instruction of length 1 at
index 0 followed by `opt_getinlinecache` everywhere after — used for
concrete evaluation of the driver's cut. -/
def cutTestProgram : Program :=
  { opcodeAt := fun i =>
      match i with
      | 0 => Opcode.other 0
      | _ => Opcode.opt_getinlinecache
    argAt := fun _ => 0
    len := fun _ => 1 }

/-- A codegen function that always keeps compiling. -/
def keepFn : CodegenFn := fun _ _ => CodegenStatus.keepCompiling

/-- A codegen table mapping ordinary opcodes to `keepFn`. -/
def cutTestFns : Opcode → Option CodegenFn :=
  fun op =>
    match op with
    | Opcode.other _ => some keepFn
    | _ => none

/-- Witness for C8: running the driver on the concrete program for two steps
reaches the `opt_getinlinecache` at index 1 and cuts the block there. -/
theorem C8_opt_getinlinecache_cut_witness :
    (∀ op, 0 < cutTestProgram.len op) ∧
    (Ev.cutJump 1 ∈ (yjit_gen_block cutTestProgram cutTestFns 2 0 0 0).1) ∧
    (cutTestProgram.opcodeAt 1 = Opcode.opt_getinlinecache ∧ 0 < 1 ∧
     (∀ op, Ev.invoke op 1 ∉
       (yjit_gen_block cutTestProgram cutTestFns 2 0 0 0).1) ∧
     (yjit_gen_block cutTestProgram cutTestFns 2 0 0 0).1.getLast? =
       some (Ev.cutJump 1)) :=
  ⟨fun _ => Nat.one_pos, by decide,
    C8_opt_getinlinecache_cut cutTestProgram cutTestFns 2 0 1
      (fun _ => Nat.one_pos) (by decide)⟩

/-! ## C4 -/

/-- Tagged fixnums pass the emitted fixnum-tag guard. -/
theorem fixnum_p_INT2FIX (n : Int) : fixnum_p (INT2FIX n) = true := by
  unfold fixnum_p INT2FIX
  simp only [decide_eq_true_eq]
  omega

/-- C4: `gen_opt_plus` first guards that both operands are tagged fixnums —
for operands of unknown compile-time type it emits both tag guards, and a
run-time operand without the fixnum tag side-exits — then computes the sum
with the tag-preserving subtract-then-add trick, so that for any two fixnums
whose sum is again a fixnum the run-time result is exactly the tagged
encoding of the mathematical sum, and it side-exits on overflow (which for
tagged operands coincides with the sum leaving the fixnum range) instead of
pushing a wrapped result.  The compile-time part registers
`BasicOpNotRedefined(INTEGER_REDEFINED_OP_FLAG, BOP_PLUS)` and refuses to
compile when the registration fails. -/
theorem C4_gen_opt_plus (a b : Int)
    (ha1 : RUBY_FIXNUM_MIN ≤ a) (ha2 : a ≤ RUBY_FIXNUM_MAX)
    (hb1 : RUBY_FIXNUM_MIN ≤ b) (hb2 : b ≤ RUBY_FIXNUM_MAX) :
    ((gen_opt_plus false TYPE_UNKNOWN TYPE_UNKNOWN).status =
      CodegenStatus.cantCompile) ∧
    ((gen_opt_plus true TYPE_UNKNOWN TYPE_UNKNOWN).bopAssumed =
      (RedefFlag.integer_redefined_op_flag, BOP.bop_plus)) ∧
    ((gen_opt_plus true TYPE_UNKNOWN TYPE_UNKNOWN).guard =
      some (TwoFixnumGuard.guards true true)) ∧
    (∀ x : Int, fixnum_p x = false →
      gen_opt_plus_run TYPE_UNKNOWN TYPE_UNKNOWN x (INT2FIX b) = none) ∧
    (∀ y : Int, fixnum_p y = false →
      gen_opt_plus_run TYPE_UNKNOWN TYPE_UNKNOWN (INT2FIX a) y = none) ∧
    ((RUBY_FIXNUM_MIN ≤ a + b ∧ a + b ≤ RUBY_FIXNUM_MAX) →
      gen_opt_plus_run TYPE_UNKNOWN TYPE_UNKNOWN (INT2FIX a) (INT2FIX b) =
        some (INT2FIX (a + b))) ∧
    ((a + b < RUBY_FIXNUM_MIN ∨ RUBY_FIXNUM_MAX < a + b) →
      gen_opt_plus_run TYPE_UNKNOWN TYPE_UNKNOWN (INT2FIX a) (INT2FIX b) =
        none) := by
  have hguard : guard_two_fixnums TYPE_UNKNOWN TYPE_UNKNOWN =
      TwoFixnumGuard.guards true true := by decide
  have e62 : (2 : Int) ^ 62 = 4611686018427387904 := by norm_num
  simp only [RUBY_FIXNUM_MIN, RUBY_FIXNUM_MAX, e62] at ha1 ha2 hb1 hb2
  have hwrapa : wrap64 (INT2FIX a - 1) = 2 * a := by
    have h2a : INT2FIX a - 1 = 2 * a := by unfold INT2FIX; ring
    rw [h2a]
    apply wrap64_eq_self <;>
      · simp only [I64_MIN, I64_MAX]
        norm_num
        omega
  have hval : 2 * a + INT2FIX b = INT2FIX (a + b) := by
    unfold INT2FIX; ring
  have key : gen_opt_plus_run TYPE_UNKNOWN TYPE_UNKNOWN (INT2FIX a)
      (INT2FIX b) =
      if INT2FIX (a + b) < I64_MIN ∨ I64_MAX < INT2FIX (a + b) then none
      else some (wrap64 (INT2FIX (a + b))) := by
    unfold gen_opt_plus_run opt_plus_arith addOvf
    rw [hguard]
    simp [fixnum_p_INT2FIX, hwrapa, hval]
  refine ⟨rfl, rfl, ?_, ?_, ?_, ?_, ?_⟩
  · simp [gen_opt_plus, hguard]
  · intro x hx
    unfold gen_opt_plus_run
    rw [hguard]
    simp [hx]
  · intro y hy
    unfold gen_opt_plus_run
    rw [hguard]
    simp [hy, fixnum_p_INT2FIX]
  · intro hsum
    simp only [RUBY_FIXNUM_MIN, RUBY_FIXNUM_MAX, e62] at hsum
    have hnoovf : ¬(INT2FIX (a + b) < I64_MIN ∨ I64_MAX < INT2FIX (a + b)) := by
      simp only [I64_MIN, I64_MAX, INT2FIX]
      norm_num
      omega
    rw [key, if_neg hnoovf, wrap64_eq_self]
    · simp only [I64_MIN, INT2FIX]
      norm_num
      omega
    · simp only [I64_MAX, INT2FIX]
      norm_num
      omega
  · intro hsum
    simp only [RUBY_FIXNUM_MIN, RUBY_FIXNUM_MAX, e62] at hsum
    have hovf : INT2FIX (a + b) < I64_MIN ∨ I64_MAX < INT2FIX (a + b) := by
      simp only [I64_MIN, I64_MAX, INT2FIX]
      norm_num
      omega
    rw [key, if_pos hovf]

/-- Witness for C4: evaluation at the fixnums 2 and 3. -/
theorem C4_gen_opt_plus_witness :
    (RUBY_FIXNUM_MIN ≤ (2 : Int)) ∧ ((2 : Int) ≤ RUBY_FIXNUM_MAX) ∧
    (RUBY_FIXNUM_MIN ≤ (3 : Int)) ∧ ((3 : Int) ≤ RUBY_FIXNUM_MAX) ∧
    (((gen_opt_plus false TYPE_UNKNOWN TYPE_UNKNOWN).status =
       CodegenStatus.cantCompile) ∧
     ((gen_opt_plus true TYPE_UNKNOWN TYPE_UNKNOWN).bopAssumed =
       (RedefFlag.integer_redefined_op_flag, BOP.bop_plus)) ∧
     ((gen_opt_plus true TYPE_UNKNOWN TYPE_UNKNOWN).guard =
       some (TwoFixnumGuard.guards true true)) ∧
     (∀ x : Int, fixnum_p x = false →
       gen_opt_plus_run TYPE_UNKNOWN TYPE_UNKNOWN x (INT2FIX 3) = none) ∧
     (∀ y : Int, fixnum_p y = false →
       gen_opt_plus_run TYPE_UNKNOWN TYPE_UNKNOWN (INT2FIX 2) y = none) ∧
     ((RUBY_FIXNUM_MIN ≤ (2 : Int) + 3 ∧ (2 : Int) + 3 ≤ RUBY_FIXNUM_MAX) →
       gen_opt_plus_run TYPE_UNKNOWN TYPE_UNKNOWN (INT2FIX 2) (INT2FIX 3) =
         some (INT2FIX ((2 : Int) + 3))) ∧
     (((2 : Int) + 3 < RUBY_FIXNUM_MIN ∨ RUBY_FIXNUM_MAX < (2 : Int) + 3) →
       gen_opt_plus_run TYPE_UNKNOWN TYPE_UNKNOWN (INT2FIX 2) (INT2FIX 3) =
         none)) :=
  ⟨by norm_num [RUBY_FIXNUM_MIN], by norm_num [RUBY_FIXNUM_MAX],
   by norm_num [RUBY_FIXNUM_MIN], by norm_num [RUBY_FIXNUM_MAX],
   C4_gen_opt_plus 2 3 (by norm_num [RUBY_FIXNUM_MIN])
     (by norm_num [RUBY_FIXNUM_MAX]) (by norm_num [RUBY_FIXNUM_MIN])
     (by norm_num [RUBY_FIXNUM_MAX])⟩

end YJIT
